import Mathlib

/-!
Shallow embedding of `scripts/template-processor.py`.

The script is a four-pass text templating engine driven by four Python
regular expressions applied with `re.sub`:

* pass 1 (three sweeps): positive conditional blocks, callback
  `replace_conditional`;
* pass 2 (three sweeps): negative conditional blocks, callback
  `replace_inverted_conditional`;
* pass 3: defaulted variable tokens, callback `replace_with_default`;
* pass 4: plain variable tokens, callback `replace_simple`.

Each regex is translated into an explicit matcher on `List Char` and
`re.sub` into a left-to-right scan (`reSubF`): at every position the
matcher is tried; on a match the callback's output is emitted and the scan
resumes after the match (replacement text is never re-scanned, exactly as
`re.sub`); otherwise one character is emitted and the scan advances by one.
`reSubF` is fueled by the input length, which bounds the number of scan
steps since every successful match consumes at least five characters and
every failed position consumes one.

Regex notes justifying the matchers:
* the group for a variable name is greedy over word characters and is
  always followed by a non-word literal in the pattern, so it denotes the
  maximal run of word characters, which must be non-empty and must be
  followed by that literal (backtracking the run cannot help, because the
  character after a shortened run is a word character, never the literal);
* the conditional content group is non-greedy with DOTALL, followed by the
  backreferenced closing tag: it denotes everything up to the first
  occurrence of the closing tag for the same name;
* the default-value group is a greedy non-empty run of characters other
  than the closing brace, followed by two closing braces: it denotes the
  maximal such run, which must be followed by two closing braces.

Word characters are read as ASCII `[A-Za-z0-9_]`; the scripts only process
ASCII template names.
-/

namespace TemplateProcessor

/-- The dict of template variables of the script: an association list from name to
value, first binding wins (Python dicts have unique keys). -/
abbrev Vars : Type := List (String × String)

/-- ASCII reading of the regex class `\w`, i.e. `[A-Za-z0-9_]`. -/
def isWordChar (c : Char) : Bool := c.isAlphanum || c == '_'

/-- Longest prefix of word characters together with the remainder: the
greedy name group of each pattern, which in every pattern is followed by a
non-word literal. -/
def takeWord : List Char → List Char × List Char
  | [] => ([], [])
  | c :: rest =>
    if isWordChar c then
      let p := takeWord rest
      (c :: p.1, p.2)
    else ([], c :: rest)

/-- Longest prefix of characters other than a closing brace, together with
the remainder: the greedy default-value group. -/
def takeNonBrace : List Char → List Char × List Char
  | [] => ([], [])
  | c :: rest =>
    if c = '}' then ([], c :: rest)
    else
      let p := takeNonBrace rest
      (c :: p.1, p.2)

/-- Boolean list-prefix test. -/
def isPrefixL : List Char → List Char → Bool
  | [], _ => true
  | _ :: _, [] => false
  | p :: ps, c :: cs => if p = c then isPrefixL ps cs else false

/-- Split a list at the first occurrence of `pat`, returning the part
before the occurrence and the part after it: the semantics of a non-greedy
group followed by the literal `pat`. -/
def findSub (pat : List Char) : List Char → Option (List Char × List Char)
  | [] => if isPrefixL pat [] then some ([], []) else none
  | c :: rest =>
    if isPrefixL pat (c :: rest) then some ([], List.drop pat.length (c :: rest))
    else
      match findSub pat rest with
      | some p => some (c :: p.1, p.2)
      | none => none

/-- The closing tag of a conditional block for a given name. -/
def closeTag (name : List Char) : List Char :=
  '{' :: '{' :: '/' :: (name ++ ['}', '}'])

/-- Matcher for the conditional-block regexes at the start of `l`
(`marker` is the hash of a positive block or the caret of a negative
block).  Returns the name, the non-greedy content, and the remainder after
the closing tag. -/
def matchBlock (marker : Char) (l : List Char) : Option (List Char × List Char × List Char) :=
  match l with
  | c1 :: c2 :: c3 :: rest =>
    if c1 = '{' ∧ c2 = '{' ∧ c3 = marker then
      let p := takeWord rest
      if p.1 = [] then none
      else
        match p.2 with
        | d1 :: d2 :: rest2 =>
          if d1 = '}' ∧ d2 = '}' then
            match findSub (closeTag p.1) rest2 with
            | some q => some (p.1, q.1, q.2)
            | none => none
          else none
        | _ => none
    else none
  | _ => none

/-- The literal `default:` of the defaulted-variable pattern. -/
def defaultMarker : List Char := ['d', 'e', 'f', 'a', 'u', 'l', 't', ':']

/-- Matcher for the defaulted-variable regex at the start of `l`.
Returns the name, the default text, and the remainder. -/
def matchDefault (l : List Char) : Option (List Char × List Char × List Char) :=
  match l with
  | c1 :: c2 :: rest =>
    if c1 = '{' ∧ c2 = '{' then
      let p := takeWord rest
      if p.1 = [] then none
      else
        match p.2 with
        | b :: rest2 =>
          if b = '|' ∧ isPrefixL defaultMarker rest2 = true then
            let q := takeNonBrace (List.drop 8 rest2)
            if q.1 = [] then none
            else
              match q.2 with
              | d1 :: d2 :: rest3 =>
                if d1 = '}' ∧ d2 = '}' then some (p.1, q.1, rest3) else none
              | _ => none
          else none
        | _ => none
    else none
  | _ => none

/-- Matcher for the plain-variable regex at the start of `l`.
Returns the name and the remainder. -/
def matchSimple (l : List Char) : Option (List Char × List Char) :=
  match l with
  | c1 :: c2 :: rest =>
    if c1 = '{' ∧ c2 = '{' then
      let p := takeWord rest
      if p.1 = [] then none
      else
        match p.2 with
        | d1 :: d2 :: rest2 =>
          if d1 = '}' ∧ d2 = '}' then some (p.1, rest2) else none
        | _ => none
    else none
  | _ => none

/-- `replace_conditional` of the script: keep the content exactly when the
variable's value (defaulting to the empty string) is truthy, i.e.
non-empty. -/
def replace_conditional (vars : Vars) (var_name content : List Char) : List Char :=
  let var_value := (List.lookup (String.mk var_name) vars).getD ""
  if var_value = "" then [] else content

/-- `replace_inverted_conditional` of the script: keep the content exactly
when the variable's value (defaulting to the empty string) is falsy, i.e.
empty. -/
def replace_inverted_conditional (vars : Vars) (var_name content : List Char) : List Char :=
  let var_value := (List.lookup (String.mk var_name) vars).getD ""
  if var_value = "" then content else []

/-- `replace_with_default` of the script: the variable's value when the
name is present (even when the value is empty), else the default text. -/
def replace_with_default (vars : Vars) (var_name default_value : List Char) : List Char :=
  match List.lookup (String.mk var_name) vars with
  | some v => v.toList
  | none => default_value

/-- `replace_simple` of the script: the variable's value, defaulting to
the empty string. -/
def replace_simple (vars : Vars) (var_name : List Char) : List Char :=
  ((List.lookup (String.mk var_name) vars).getD "").toList

/-- One `re.sub` call for the positive-conditional pattern, as a step
function: match at the current position, already paired with the
callback's replacement. -/
def condStep (vars : Vars) (l : List Char) : Option (List Char × List Char) :=
  match matchBlock '#' l with
  | some m => some (replace_conditional vars m.1 m.2.1, m.2.2)
  | none => none

/-- Step function of the negative-conditional `re.sub`. -/
def invStep (vars : Vars) (l : List Char) : Option (List Char × List Char) :=
  match matchBlock '^' l with
  | some m => some (replace_inverted_conditional vars m.1 m.2.1, m.2.2)
  | none => none

/-- Step function of the defaulted-variable `re.sub`. -/
def defaultStep (vars : Vars) (l : List Char) : Option (List Char × List Char) :=
  match matchDefault l with
  | some m => some (replace_with_default vars m.1 m.2.1, m.2.2)
  | none => none

/-- Step function of the plain-variable `re.sub`. -/
def simpleStep (vars : Vars) (l : List Char) : Option (List Char × List Char) :=
  match matchSimple l with
  | some m => some (replace_simple vars m.1, m.2)
  | none => none

/-- The `re.sub` scan: leftmost, non-overlapping, replacement text never
re-scanned.  Fueled; fuel equal to the input length always suffices
because every step consumes at least one input character. -/
def reSubF (step : List Char → Option (List Char × List Char)) : Nat → List Char → List Char
  | _, [] => []
  | 0, l => l
  | fuel + 1, c :: rest =>
    match step (c :: rest) with
    | some r => r.1 ++ reSubF step fuel r.2
    | none => c :: reSubF step fuel rest

/-- One full `re.sub` call over a string (as a character list). -/
def subOnce (step : List Char → Option (List Char × List Char)) (l : List Char) : List Char :=
  reSubF step l.length l

/-- The `for _ in range(3)` loop over the positive-conditional `re.sub`. -/
def positive_pass (vars : Vars) (l : List Char) : List Char :=
  subOnce (condStep vars)
    (subOnce (condStep vars) (subOnce (condStep vars) l))

/-- The `for _ in range(3)` loop over the negative-conditional `re.sub`. -/
def inverted_pass (vars : Vars) (l : List Char) : List Char :=
  subOnce (invStep vars)
    (subOnce (invStep vars) (subOnce (invStep vars) l))

/-- `process_template` of the script, on character lists: the four passes
in source order. -/
def process_template_list (vars : Vars) (template_content : List Char) : List Char :=
  let result := template_content
  let result := positive_pass vars result
  let result := inverted_pass vars result
  let result := subOnce (defaultStep vars) result
  let result := subOnce (simpleStep vars) result
  result

/-- `process_template` of the script. -/
def process_template (vars : Vars) (template_content : String) : String :=
  String.mk (process_template_list vars template_content.toList)

/-- Python `str.isupper` on ASCII strings: at least one cased character
and no lowercase one. -/
def pyIsUpper (s : String) : Bool :=
  s.toList.any Char.isAlpha && s.toList.all (fun c => !c.isLower)

/-- `load_variables_from_env` of the script; the process environment
(`os.environ.items()`) is passed in explicitly as a list of name/value
pairs. -/
def load_variables_from_env (environ : List (String × String)) : Vars :=
  environ.filter (fun kv => pyIsUpper kv.1)

/-! Template fixtures, written with the markup builders below (the braces
of the mini-syntax are spelled as character literals throughout). -/

/-- A positive conditional block `(open hash name)(content)(close name)`. -/
def posBlockT (name content : List Char) : List Char :=
  '{' :: '{' :: '#' :: (name ++ '}' :: '}' :: (content ++ closeTag name))

/-- A negative conditional block `(open caret name)(content)(close name)`. -/
def negBlockT (name content : List Char) : List Char :=
  '{' :: '{' :: '^' :: (name ++ '}' :: '}' :: (content ++ closeTag name))

/-- A plain variable token for `name`. -/
def simpleT (name : List Char) : List Char :=
  '{' :: '{' :: (name ++ ['}', '}'])

/-- A defaulted variable token for `name` with default text `dflt`. -/
def defaultT (name dflt : List Char) : List Char :=
  '{' :: '{' :: (name ++ '|' :: (defaultMarker ++ (dflt ++ ['}', '}'])))

example : process_template [] (String.mk (posBlockT ['X'] ['h', 'i'])) = "" := by decide
example : process_template [("X", "")] (String.mk (posBlockT ['X'] ['h', 'i'])) = "" := by decide
example : process_template [("X", "1")] (String.mk (posBlockT ['X'] ['h', 'i'])) = "hi" := by decide
example : process_template [] (String.mk (negBlockT ['X'] ['h', 'i'])) = "hi" := by decide
example : process_template [("X", "1")] (String.mk (negBlockT ['X'] ['h', 'i'])) = "" := by decide
example : process_template [] (String.mk (defaultT ['X'] ['f', 'o', 'o'])) = "foo" := by decide
example : process_template [("X", "")] (String.mk (defaultT ['X'] ['f', 'o', 'o'])) = "" := by decide
example :
    process_template [("A", "1"), ("B", "1")]
      (String.mk (posBlockT ['A'] (posBlockT ['B'] ['i', 'n', 'n', 'e', 'r']))) = "inner" := by
  decide
example :
    process_template [("A", "1"), ("B", "1"), ("C", "1")]
      (String.mk (posBlockT ['A'] (posBlockT ['B'] (posBlockT ['C'] ['x'])))) = "x" := by decide
example :
    positive_pass [("A", "1"), ("B", "1"), ("C", "1"), ("D", "1")]
      (posBlockT ['A'] (posBlockT ['B'] (posBlockT ['C'] (posBlockT ['D'] ['x']))))
      = posBlockT ['D'] ['x'] := by decide
example :
    process_template [("NAME", "world")]
      (String.mk ('H' :: 'e' :: 'l' :: 'l' :: 'o' :: ' ' :: (simpleT ['N', 'A', 'M', 'E'] ++ ['!'])))
      = "Hello world!" := by decide
example :
    process_template [("X", String.mk (posBlockT ['A'] ['h', 'i'])), ("A", "1")]
      (String.mk (simpleT ['X'])) = String.mk (posBlockT ['A'] ['h', 'i']) := by decide
example :
    process_template [("X", String.mk (simpleT ['Y'])), ("Y", "z")]
      (String.mk (simpleT ['X'])) = String.mk (simpleT ['Y']) := by decide
example :
    process_template [("A", "1"), ("B", "b")] (String.mk (posBlockT ['A'] (simpleT ['B'])))
      = "b" := by decide
example :
    process_template [("X", "1")] (String.mk (closeTag ['X'])) = String.mk (closeTag ['X']) := by
  decide
example :
    process_template [("A", "1"), ("B", "1")]
      (String.mk ('{' :: '{' :: '#' :: 'A' :: '}' :: '}' :: 'x' :: closeTag ['B']))
      = String.mk ('{' :: '{' :: '#' :: 'A' :: '}' :: '}' :: 'x' :: closeTag ['B']) := by decide
example :
    process_template [("X", "1")] (String.mk ['{', '{', 'X', ' ', 'Y', '}', '}'])
      = String.mk ['{', '{', 'X', ' ', 'Y', '}', '}'] := by decide
example :
    process_template [] (String.mk (defaultT ['X'] []))
      = String.mk (defaultT ['X'] []) := by decide
example :
    process_template []
      (String.mk ('{' :: '{' :: 'X' :: '|' :: (defaultMarker ++ ['a', '}', '}', '}'])))
      = String.mk ['a', '}'] := by decide

/-! Helper lemmas about the scan and the matchers. -/

/-- Whether the first character is a word character (used to state
maximality of the greedy name group). -/
def headWordF : List Char → Bool
  | [] => false
  | c :: _ => isWordChar c

/-- Whether the scan of the greedy default group stops at the head. -/
def headStopF : List Char → Bool
  | [] => true
  | c :: _ => c == '}'

theorem reSubF_nil (step : List Char → Option (List Char × List Char)) (fuel : Nat) :
    reSubF step fuel [] = [] := by
  cases fuel <;> rfl

theorem reSubF_cons_some (step : List Char → Option (List Char × List Char)) (fuel : Nat)
    (c : Char) (cs : List Char) (r rest : List Char) (h : step (c :: cs) = some (r, rest)) :
    reSubF step (fuel + 1) (c :: cs) = r ++ reSubF step fuel rest := by
  simp only [reSubF, h]

theorem reSubF_cons_none (step : List Char → Option (List Char × List Char)) (fuel : Nat)
    (c : Char) (cs : List Char) (h : step (c :: cs) = none) :
    reSubF step (fuel + 1) (c :: cs) = c :: reSubF step fuel cs := by
  simp only [reSubF, h]

theorem mk_toList (s : String) : String.mk s.toList = s := rfl

theorem takeWord_append (name rest : List Char) (hw : ∀ c ∈ name, isWordChar c = true)
    (hr : headWordF rest = false) : takeWord (name ++ rest) = (name, rest) := by
  induction name with
  | nil =>
    cases rest with
    | nil => rfl
    | cons c cs =>
      have hc : isWordChar c = false := hr
      simp [takeWord, hc]
  | cons a as ih =>
    have ha : isWordChar a = true := hw a (by simp)
    have ih' := ih (fun c hc => hw c (by simp [hc]))
    simp [takeWord, ha, ih']

theorem takeNonBrace_append (dflt rest : List Char) (hd : ∀ c ∈ dflt, (c == '}') = false)
    (hr : headStopF rest = true) : takeNonBrace (dflt ++ rest) = (dflt, rest) := by
  induction dflt with
  | nil =>
    cases rest with
    | nil => rfl
    | cons c cs =>
      have hc : c = '}' := by
        have : (c == '}') = true := hr
        exact eq_of_beq this
      simp [takeNonBrace, hc]
  | cons a as ih =>
    have ha : ¬(a = '}') := by
      have := hd a (by simp)
      simpa using this
    have ih' := ih (fun c hc => hd c (by simp [hc]))
    simp [takeNonBrace, ha, ih']

theorem isPrefixL_self (p : List Char) : isPrefixL p p = true := by
  induction p with
  | nil => rfl
  | cons a as ih => simp [isPrefixL, ih]

theorem isPrefixL_append (p l : List Char) : isPrefixL p (p ++ l) = true := by
  induction p with
  | nil => rfl
  | cons a as ih => simp [isPrefixL, ih]

theorem findSub_self (pat : List Char) : findSub pat pat = some ([], []) := by
  cases pat with
  | nil => rfl
  | cons p ps =>
    simp [findSub, isPrefixL_self, List.drop_length]

theorem findSub_cons_ne (pat : List Char) (c : Char) (rest : List Char)
    (h : isPrefixL pat (c :: rest) = false) :
    findSub pat (c :: rest) =
      match findSub pat rest with
      | some p => some (c :: p.1, p.2)
      | none => none := by
  simp [findSub, h]

theorem findSub_closeTag_hi (name : List Char) :
    findSub (closeTag name) ('h' :: 'i' :: closeTag name) = some (['h', 'i'], []) := by
  have h1 : isPrefixL (closeTag name) ('h' :: 'i' :: closeTag name) = false := rfl
  have h2 : isPrefixL (closeTag name) ('i' :: closeTag name) = false := rfl
  rw [findSub_cons_ne _ _ _ h1, findSub_cons_ne _ _ _ h2, findSub_self]

theorem matchBlock_hi (marker : Char) (name : List Char) (hne : ¬(name = []))
    (hw : ∀ c ∈ name, isWordChar c = true) :
    matchBlock marker ('{' :: '{' :: marker :: (name ++ '}' :: '}' :: ('h' :: 'i' :: closeTag name)))
      = some (name, ['h', 'i'], []) := by
  have ht := takeWord_append name ('}' :: '}' :: ('h' :: 'i' :: closeTag name)) hw (by rfl)
  simp [matchBlock, ht, hne, findSub_closeTag_hi]

theorem condStep_block_hi (vars : Vars) (name : List Char) (hne : ¬(name = []))
    (hw : ∀ c ∈ name, isWordChar c = true) :
    condStep vars ('{' :: '{' :: '#' :: (name ++ '}' :: '}' :: ('h' :: 'i' :: closeTag name)))
      = some (replace_conditional vars name ['h', 'i'], []) := by
  simp [condStep, matchBlock_hi '#' name hne hw]

theorem subOnce_condBlock_hi (vars : Vars) (name : List Char) (hne : ¬(name = []))
    (hw : ∀ c ∈ name, isWordChar c = true) :
    subOnce (condStep vars) ('{' :: '{' :: '#' :: (name ++ '}' :: '}' :: ('h' :: 'i' :: closeTag name)))
      = replace_conditional vars name ['h', 'i'] := by
  show reSubF (condStep vars)
      (('{' :: '#' :: (name ++ '}' :: '}' :: ('h' :: 'i' :: closeTag name))).length + 1)
      ('{' :: '{' :: '#' :: (name ++ '}' :: '}' :: ('h' :: 'i' :: closeTag name))) = _
  rw [reSubF_cons_some _ _ _ _ _ _ (condStep_block_hi vars name hne hw)]
  rw [reSubF_nil, List.append_nil]

theorem positive_pass_block_hi (vars : Vars) (name : List Char) (hne : ¬(name = []))
    (hw : ∀ c ∈ name, isWordChar c = true) :
    positive_pass vars ('{' :: '{' :: '#' :: (name ++ '}' :: '}' :: ('h' :: 'i' :: closeTag name)))
      = (if (List.lookup (String.mk name) vars).getD "" = "" then [] else ['h', 'i']) := by
  have h2 : replace_conditional vars name ['h', 'i']
      = (if (List.lookup (String.mk name) vars).getD "" = "" then [] else ['h', 'i']) := rfl
  unfold positive_pass
  rw [subOnce_condBlock_hi vars name hne hw, h2]
  by_cases h : (List.lookup (String.mk name) vars).getD "" = ""
  · rw [if_pos h]; rfl
  · rw [if_neg h]; rfl

theorem process_template_posBlock_hi (vars : Vars) (name : List Char) (hne : ¬(name = []))
    (hw : ∀ c ∈ name, isWordChar c = true) :
    process_template vars (String.mk ('{' :: '{' :: '#' :: (name ++ '}' :: '}' :: ('h' :: 'i' :: closeTag name))))
      = (if (List.lookup (String.mk name) vars).getD "" = "" then "" else "hi") := by
  show String.mk
      (subOnce (simpleStep vars) (subOnce (defaultStep vars) (inverted_pass vars
        (positive_pass vars ('{' :: '{' :: '#' :: (name ++ '}' :: '}' :: ('h' :: 'i' :: closeTag name)))))))
      = _
  rw [positive_pass_block_hi vars name hne hw]
  by_cases h : (List.lookup (String.mk name) vars).getD "" = ""
  · rw [if_pos h, if_pos h]; rfl
  · rw [if_neg h, if_neg h]; rfl

/-- C1: positive conditional blocks follow string truthiness.  For every
variable mapping and every valid block name, the template consisting of a
positive conditional block around `hi` processes to the empty string when
the name is absent or maps to the empty string, and to `hi` when the value
is non-empty; in particular for the name `X`: unset and empty give the
empty output, the non-empty value `1` gives `hi`. -/
theorem positive_conditional_truthiness :
    (∀ (vars : Vars) (name : List Char), ¬(name = []) → (∀ c ∈ name, isWordChar c = true) →
      process_template vars (String.mk (posBlockT name ['h', 'i']))
        = (if (List.lookup (String.mk name) vars).getD "" = "" then "" else "hi"))
    ∧ process_template [] (String.mk (posBlockT ['X'] ['h', 'i'])) = ""
    ∧ process_template [("X", "")] (String.mk (posBlockT ['X'] ['h', 'i'])) = ""
    ∧ process_template [("X", "1")] (String.mk (posBlockT ['X'] ['h', 'i'])) = "hi" := by
  refine ⟨?_, by decide, by decide, by decide⟩
  intro vars name hne hw
  have hshape : posBlockT name ['h', 'i']
      = '{' :: '{' :: '#' :: (name ++ '}' :: '}' :: ('h' :: 'i' :: closeTag name)) := by
    simp [posBlockT]
  rw [hshape]
  exact process_template_posBlock_hi vars name hne hw

/-- Witness for C1 at a concrete input. -/
theorem positive_conditional_truthiness_witness :
    (¬((['X'] : List Char) = []) ∧ (∀ c ∈ (['X'] : List Char), isWordChar c = true))
    ∧ process_template [("X", "v")] (String.mk (posBlockT ['X'] ['h', 'i'])) = "hi" := by
  refine ⟨⟨by decide, by decide⟩, ?_⟩
  have h := positive_conditional_truthiness.1 [("X", "v")] ['X'] (by decide) (by decide)
  exact h.trans (by decide)

theorem process_template_id (vars : Vars) (l : List Char)
    (p1 : positive_pass vars l = l) (p2 : inverted_pass vars l = l)
    (p3 : subOnce (defaultStep vars) l = l) (p4 : subOnce (simpleStep vars) l = l) :
    process_template vars (String.mk l) = String.mk l := by
  show String.mk (subOnce (simpleStep vars) (subOnce (defaultStep vars)
      (inverted_pass vars (positive_pass vars l)))) = _
  rw [p1, p2, p3, p4]

theorem inverted_pass_negX (vars : Vars) :
    inverted_pass vars (negBlockT ['X'] ['h', 'i'])
      = (if (List.lookup "X" vars).getD "" = "" then ['h', 'i'] else []) := by
  have e1 : subOnce (invStep vars) (negBlockT ['X'] ['h', 'i'])
      = replace_inverted_conditional vars ['X'] ['h', 'i'] ++ [] := rfl
  have e2 : replace_inverted_conditional vars ['X'] ['h', 'i']
      = (if (List.lookup "X" vars).getD "" = "" then ['h', 'i'] else []) := rfl
  unfold inverted_pass
  rw [e1, e2]
  by_cases h : (List.lookup "X" vars).getD "" = ""
  · rw [if_pos h]; rfl
  · rw [if_neg h]; rfl

theorem process_template_negX (vars : Vars) :
    process_template vars (String.mk (negBlockT ['X'] ['h', 'i']))
      = (if (List.lookup "X" vars).getD "" = "" then "hi" else "") := by
  show String.mk (subOnce (simpleStep vars) (subOnce (defaultStep vars)
      (inverted_pass vars (positive_pass vars (negBlockT ['X'] ['h', 'i']))))) = _
  have hpos : positive_pass vars (negBlockT ['X'] ['h', 'i']) = negBlockT ['X'] ['h', 'i'] := rfl
  rw [hpos, inverted_pass_negX vars]
  by_cases h : (List.lookup "X" vars).getD "" = ""
  · rw [if_pos h, if_pos h]; rfl
  · rw [if_neg h, if_neg h]; rfl

theorem positive_pass_posX (vars : Vars) :
    positive_pass vars (posBlockT ['X'] ['h', 'i'])
      = (if (List.lookup "X" vars).getD "" = "" then [] else ['h', 'i']) := by
  have e1 : subOnce (condStep vars) (posBlockT ['X'] ['h', 'i'])
      = replace_conditional vars ['X'] ['h', 'i'] ++ [] := rfl
  have e2 : replace_conditional vars ['X'] ['h', 'i']
      = (if (List.lookup "X" vars).getD "" = "" then [] else ['h', 'i']) := rfl
  unfold positive_pass
  rw [e1, e2]
  by_cases h : (List.lookup "X" vars).getD "" = ""
  · rw [if_pos h]; rfl
  · rw [if_neg h]; rfl

theorem process_template_posX (vars : Vars) :
    process_template vars (String.mk (posBlockT ['X'] ['h', 'i']))
      = (if (List.lookup "X" vars).getD "" = "" then "" else "hi") := by
  show String.mk (subOnce (simpleStep vars) (subOnce (defaultStep vars)
      (inverted_pass vars (positive_pass vars (posBlockT ['X'] ['h', 'i']))))) = _
  rw [positive_pass_posX vars]
  by_cases h : (List.lookup "X" vars).getD "" = ""
  · rw [if_pos h, if_pos h]; rfl
  · rw [if_neg h, if_neg h]; rfl

/-- C4: negative conditionals are the exact logical complement of the
positive form: for every mapping, the negative block around `hi` keeps
`hi` exactly when the positive block drops it (name absent or value
empty), and drops it exactly when the positive block keeps it. -/
theorem negative_conditional_complement (vars : Vars) :
    process_template vars (String.mk (negBlockT ['X'] ['h', 'i']))
      = (if (List.lookup "X" vars).getD "" = "" then "hi" else "")
    ∧ process_template vars (String.mk (posBlockT ['X'] ['h', 'i']))
      = (if (List.lookup "X" vars).getD "" = "" then "" else "hi")
    ∧ (process_template vars (String.mk (negBlockT ['X'] ['h', 'i'])) = "hi"
        ↔ process_template vars (String.mk (posBlockT ['X'] ['h', 'i'])) = "")
    ∧ (process_template vars (String.mk (negBlockT ['X'] ['h', 'i'])) = ""
        ↔ process_template vars (String.mk (posBlockT ['X'] ['h', 'i'])) = "hi") := by
  refine ⟨process_template_negX vars, process_template_posX vars, ?_, ?_⟩ <;>
  · rw [process_template_negX vars, process_template_posX vars]
    by_cases h : (List.lookup "X" vars).getD "" = ""
    · rw [if_pos h, if_pos h]; decide
    · rw [if_neg h, if_neg h]; decide

/-- C3: the fixed three-sweep repetition of the positive-conditional pass
fully resolves nesting up to three levels (the two-level example with both
variables truthy yields `inner`, a three-level template yields `x`), while
a four-level template of truthy positive blocks leaves the innermost block
unresolved after the positive pass — and that leftover markup survives to
the final output. -/
theorem nesting_three_sweep_limit :
    process_template [("A", "1"), ("B", "1")]
        (String.mk (posBlockT ['A'] (posBlockT ['B'] ['i', 'n', 'n', 'e', 'r']))) = "inner"
    ∧ process_template [("A", "1"), ("B", "1"), ("C", "1")]
        (String.mk (posBlockT ['A'] (posBlockT ['B'] (posBlockT ['C'] ['x'])))) = "x"
    ∧ positive_pass [("A", "1"), ("B", "1"), ("C", "1"), ("D", "1")]
        (posBlockT ['A'] (posBlockT ['B'] (posBlockT ['C'] (posBlockT ['D'] ['x']))))
        = posBlockT ['D'] ['x']
    ∧ process_template [("A", "1"), ("B", "1"), ("C", "1"), ("D", "1")]
        (String.mk (posBlockT ['A'] (posBlockT ['B'] (posBlockT ['C'] (posBlockT ['D'] ['x'])))))
        = String.mk (posBlockT ['D'] ['x']) :=
  ⟨by decide, by decide, by decide, by decide⟩

/-- C6: the engine is a total function (by construction of the embedding)
and malformed or unmatched tags pass through unchanged for every variable
mapping: a closing tag with no opener, a block whose opening and closing
names differ, and brace-delimited text matching no pass's pattern. -/
theorem malformed_tags_pass_through (vars : Vars) :
    process_template vars (String.mk (closeTag ['X'])) = String.mk (closeTag ['X'])
    ∧ process_template vars
        (String.mk ('{' :: '{' :: '#' :: 'A' :: '}' :: '}' :: 'x' :: closeTag ['B']))
      = String.mk ('{' :: '{' :: '#' :: 'A' :: '}' :: '}' :: 'x' :: closeTag ['B'])
    ∧ process_template vars (String.mk ['{', '{', 'X', ' ', 'Y', '}', '}'])
      = String.mk ['{', '{', 'X', ' ', 'Y', '}', '}']
    ∧ process_template vars (String.mk (defaultT ['X'] []))
      = String.mk (defaultT ['X'] []) :=
  ⟨process_template_id vars _ rfl rfl rfl rfl,
    process_template_id vars _ rfl rfl rfl rfl,
    process_template_id vars _ rfl rfl rfl rfl,
    process_template_id vars _ rfl rfl rfl rfl⟩

/-- C7: the pipeline is one-directional.  Content revealed by a positive
conditional is still substituted by the later plain-variable pass, while a
value substituted by the plain-variable pass is never re-scanned by the
conditional passes: substituting a value that spells a positive block
leaves that text literal in the output. -/
theorem one_directional_pipeline :
    (∀ vars : Vars,
      process_template vars (String.mk (posBlockT ['A'] (simpleT ['B'])))
        = (if (List.lookup "A" vars).getD "" = "" then ""
           else (List.lookup "B" vars).getD ""))
    ∧ process_template [("X", String.mk (posBlockT ['A'] ['h', 'i'])), ("A", "1")]
        (String.mk (simpleT ['X'])) = String.mk (posBlockT ['A'] ['h', 'i']) := by
  refine ⟨?_, by decide⟩
  intro vars
  have e1 : subOnce (condStep vars) (posBlockT ['A'] (simpleT ['B']))
      = replace_conditional vars ['A'] (simpleT ['B']) ++ [] := rfl
  have e2 : replace_conditional vars ['A'] (simpleT ['B'])
      = (if (List.lookup "A" vars).getD "" = "" then [] else simpleT ['B']) := rfl
  have hpos : positive_pass vars (posBlockT ['A'] (simpleT ['B']))
      = (if (List.lookup "A" vars).getD "" = "" then [] else simpleT ['B']) := by
    unfold positive_pass
    rw [e1, e2]
    by_cases h : (List.lookup "A" vars).getD "" = ""
    · rw [if_pos h]; rfl
    · rw [if_neg h]; rfl
  show String.mk (subOnce (simpleStep vars) (subOnce (defaultStep vars)
      (inverted_pass vars (positive_pass vars (posBlockT ['A'] (simpleT ['B'])))))) = _
  rw [hpos]
  by_cases h : (List.lookup "A" vars).getD "" = ""
  · rw [if_pos h, if_pos h]; rfl
  · rw [if_neg h, if_neg h]
    have hinv : inverted_pass vars (simpleT ['B']) = simpleT ['B'] := rfl
    have hdef : subOnce (defaultStep vars) (simpleT ['B']) = simpleT ['B'] := rfl
    have hsimp : subOnce (simpleStep vars) (simpleT ['B']) = replace_simple vars ['B'] ++ [] := rfl
    have e3 : replace_simple vars ['B'] = ((List.lookup "B" vars).getD "").toList := rfl
    rw [hinv, hdef, hsimp, e3, List.append_nil, mk_toList]

/-- C10: values substituted by the plain-variable pass are not themselves
re-scanned for variable references: when `X` maps to the text of a plain
`Y` token (and `Y` is itself bound), processing a plain `X` token yields
the literal `Y` token text, not the value of `Y`. -/
theorem no_recursive_expansion (vars : Vars)
    (hx : List.lookup "X" vars = some (String.mk (simpleT ['Y'])))
    (_hy : (List.lookup "Y" vars).isSome = true) :
    process_template vars (String.mk (simpleT ['X'])) = String.mk (simpleT ['Y']) := by
  show String.mk (subOnce (simpleStep vars) (subOnce (defaultStep vars)
      (inverted_pass vars (positive_pass vars (simpleT ['X']))))) = _
  have h1 : positive_pass vars (simpleT ['X']) = simpleT ['X'] := rfl
  have h2 : inverted_pass vars (simpleT ['X']) = simpleT ['X'] := rfl
  have h3 : subOnce (defaultStep vars) (simpleT ['X']) = simpleT ['X'] := rfl
  have h4 : subOnce (simpleStep vars) (simpleT ['X']) = replace_simple vars ['X'] ++ [] := rfl
  have e3 : replace_simple vars ['X'] = ((List.lookup "X" vars).getD "").toList := rfl
  rw [h1, h2, h3, h4, e3, hx, List.append_nil]
  rfl

/-- Witness for C10 at a concrete mapping. -/
theorem no_recursive_expansion_witness :
    List.lookup "X" [("X", String.mk (simpleT ['Y'])), ("Y", "z")]
        = some (String.mk (simpleT ['Y']))
    ∧ process_template [("X", String.mk (simpleT ['Y'])), ("Y", "z")]
        (String.mk (simpleT ['X'])) = String.mk (simpleT ['Y']) :=
  ⟨by decide,
    no_recursive_expansion [("X", String.mk (simpleT ['Y'])), ("Y", "z")] (by decide) (by decide)⟩

theorem matchDefault_token (name dflt : List Char) (hne : ¬(name = []))
    (hw : ∀ c ∈ name, isWordChar c = true) (hdne : ¬(dflt = []))
    (hd : ∀ c ∈ dflt, (c == '}') = false) :
    matchDefault (defaultT name dflt) = some (name, dflt, []) := by
  have ht := takeWord_append name ('|' :: (defaultMarker ++ (dflt ++ ['}', '}']))) hw (by rfl)
  have hpre : isPrefixL defaultMarker (defaultMarker ++ (dflt ++ ['}', '}'])) = true :=
    isPrefixL_append _ _
  have hdrop : List.drop 8 (defaultMarker ++ (dflt ++ ['}', '}'])) = dflt ++ ['}', '}'] := rfl
  have htn := takeNonBrace_append dflt ['}', '}'] hd (by rfl)
  simp [matchDefault, defaultT, ht, hne, hpre, hdrop, htn, hdne]

theorem defaultStep_token (vars : Vars) (name dflt : List Char) (hne : ¬(name = []))
    (hw : ∀ c ∈ name, isWordChar c = true) (hdne : ¬(dflt = []))
    (hd : ∀ c ∈ dflt, (c == '}') = false) :
    defaultStep vars (defaultT name dflt)
      = some (replace_with_default vars name dflt, []) := by
  simp [defaultStep, matchDefault_token name dflt hne hw hdne hd]

theorem subOnce_defaultT (vars : Vars) (name dflt : List Char) (hne : ¬(name = []))
    (hw : ∀ c ∈ name, isWordChar c = true) (hdne : ¬(dflt = []))
    (hd : ∀ c ∈ dflt, (c == '}') = false) :
    subOnce (defaultStep vars) (defaultT name dflt) = replace_with_default vars name dflt := by
  show reSubF (defaultStep vars)
      (('{' :: (name ++ '|' :: (defaultMarker ++ (dflt ++ ['}', '}'])))).length + 1)
      ('{' :: '{' :: (name ++ '|' :: (defaultMarker ++ (dflt ++ ['}', '}'])))) = _
  rw [reSubF_cons_some _ _ _ _ _ _ (defaultStep_token vars name dflt hne hw hdne hd)]
  rw [reSubF_nil, List.append_nil]

/-- C2: the defaulted-variable pass is governed by presence, not
truthiness.  For every mapping and every well-formed defaulted token, the
pass substitutes the bound value whenever the name is a key — including
the empty value — and the literal default text when it is absent; through
the whole engine, the spec's examples: unset gives `foo`, set-but-empty
gives the empty output. -/
theorem default_substitution_presence :
    (∀ (vars : Vars) (name dflt : List Char), ¬(name = []) →
      (∀ c ∈ name, isWordChar c = true) → ¬(dflt = []) →
      (∀ c ∈ dflt, (c == '}') = false) →
      subOnce (defaultStep vars) (defaultT name dflt)
        = (match List.lookup (String.mk name) vars with
           | some v => v.toList
           | none => dflt))
    ∧ process_template [] (String.mk (defaultT ['X'] ['f', 'o', 'o'])) = "foo"
    ∧ process_template [("X", "")] (String.mk (defaultT ['X'] ['f', 'o', 'o'])) = "" := by
  refine ⟨?_, by decide, by decide⟩
  intro vars name dflt hne hw hdne hd
  have e : replace_with_default vars name dflt
      = (match List.lookup (String.mk name) vars with
         | some v => v.toList
         | none => dflt) := rfl
  rw [subOnce_defaultT vars name dflt hne hw hdne hd, e]

/-- Witness for C2 at a concrete mapping and token. -/
theorem default_substitution_presence_witness :
    (¬((['K'] : List Char) = []) ∧ (∀ c ∈ (['K'] : List Char), isWordChar c = true)
      ∧ (∀ c ∈ (['f'] : List Char), (c == '}') = false))
    ∧ subOnce (defaultStep [("K", "v")]) (defaultT ['K'] ['f']) = "v".toList :=
  ⟨⟨by decide, by decide, by decide⟩,
    default_substitution_presence.1 [("K", "v")] ['K'] ['f']
      (by decide) (by decide) (by decide) (by decide)⟩

theorem matchSimple_token (name : List Char) (hne : ¬(name = []))
    (hw : ∀ c ∈ name, isWordChar c = true) :
    matchSimple (simpleT name) = some (name, []) := by
  have ht := takeWord_append name ['}', '}'] hw (by rfl)
  simp [matchSimple, simpleT, ht, hne]

theorem simpleStep_token (vars : Vars) (name : List Char) (hne : ¬(name = []))
    (hw : ∀ c ∈ name, isWordChar c = true) :
    simpleStep vars (simpleT name) = some (replace_simple vars name, []) := by
  simp [simpleStep, matchSimple_token name hne hw]

theorem subOnce_simpleT (vars : Vars) (name : List Char) (hne : ¬(name = []))
    (hw : ∀ c ∈ name, isWordChar c = true) :
    subOnce (simpleStep vars) (simpleT name) = replace_simple vars name := by
  show reSubF (simpleStep vars) (('{' :: (name ++ ['}', '}'])).length + 1)
      ('{' :: '{' :: (name ++ ['}', '}'])) = _
  rw [reSubF_cons_some _ _ _ _ _ _ (simpleStep_token vars name hne hw)]
  rw [reSubF_nil, List.append_nil]

/-- C5: the plain-variable pass replaces every well-formed plain token by
the bound value, or by the empty string when the name is absent; the
spec's example template around a `NAME` token produces the greeting with
the substituted value, `Hello world!` for the mapping binding `NAME` to
`world`. -/
theorem simple_substitution :
    (∀ (vars : Vars) (name : List Char), ¬(name = []) →
      (∀ c ∈ name, isWordChar c = true) →
      subOnce (simpleStep vars) (simpleT name)
        = ((List.lookup (String.mk name) vars).getD "").toList)
    ∧ (∀ vars : Vars,
        process_template vars
            (String.mk ('H' :: 'e' :: 'l' :: 'l' :: 'o' :: ' ' ::
              (simpleT ['N', 'A', 'M', 'E'] ++ ['!'])))
          = (match List.lookup "NAME" vars with
             | some v => "Hello " ++ v ++ "!"
             | none => "Hello !"))
    ∧ process_template [("NAME", "world")]
        (String.mk ('H' :: 'e' :: 'l' :: 'l' :: 'o' :: ' ' ::
          (simpleT ['N', 'A', 'M', 'E'] ++ ['!'])))
        = "Hello world!" := by
  refine ⟨?_, ?_, by decide⟩
  · intro vars name hne hw
    have e : replace_simple vars name
        = ((List.lookup (String.mk name) vars).getD "").toList := rfl
    rw [subOnce_simpleT vars name hne hw, e]
  · intro vars
    show String.mk (subOnce (simpleStep vars) (subOnce (defaultStep vars)
        (inverted_pass vars (positive_pass vars
          ('H' :: 'e' :: 'l' :: 'l' :: 'o' :: ' ' ::
            (simpleT ['N', 'A', 'M', 'E'] ++ ['!'])))))) = _
    have p1 : positive_pass vars ('H' :: 'e' :: 'l' :: 'l' :: 'o' :: ' ' ::
        (simpleT ['N', 'A', 'M', 'E'] ++ ['!']))
        = 'H' :: 'e' :: 'l' :: 'l' :: 'o' :: ' ' :: (simpleT ['N', 'A', 'M', 'E'] ++ ['!']) := rfl
    have p2 : inverted_pass vars ('H' :: 'e' :: 'l' :: 'l' :: 'o' :: ' ' ::
        (simpleT ['N', 'A', 'M', 'E'] ++ ['!']))
        = 'H' :: 'e' :: 'l' :: 'l' :: 'o' :: ' ' :: (simpleT ['N', 'A', 'M', 'E'] ++ ['!']) := rfl
    have p3 : subOnce (defaultStep vars) ('H' :: 'e' :: 'l' :: 'l' :: 'o' :: ' ' ::
        (simpleT ['N', 'A', 'M', 'E'] ++ ['!']))
        = 'H' :: 'e' :: 'l' :: 'l' :: 'o' :: ' ' :: (simpleT ['N', 'A', 'M', 'E'] ++ ['!']) := rfl
    have p4 : subOnce (simpleStep vars) ('H' :: 'e' :: 'l' :: 'l' :: 'o' :: ' ' ::
        (simpleT ['N', 'A', 'M', 'E'] ++ ['!']))
        = 'H' :: 'e' :: 'l' :: 'l' :: 'o' :: ' ' ::
          (replace_simple vars ['N', 'A', 'M', 'E'] ++ ['!']) := rfl
    have e : replace_simple vars ['N', 'A', 'M', 'E']
        = ((List.lookup "NAME" vars).getD "").toList := rfl
    rw [p1, p2, p3, p4, e]
    cases hv : List.lookup "NAME" vars with
    | none => rfl
    | some v => cases v with | _ d => rfl

/-- Witness for C5 at a concrete mapping and token. -/
theorem simple_substitution_witness :
    (¬((['K'] : List Char) = []) ∧ (∀ c ∈ (['K'] : List Char), isWordChar c = true))
    ∧ subOnce (simpleStep [("K", "w")]) (simpleT ['K']) = "w".toList :=
  ⟨⟨by decide, by decide⟩, simple_substitution.1 [("K", "w")] ['K'] (by decide) (by decide)⟩

/-! Identity of the engine on token-free text (C8). -/

/-- No position of `l` matches `step`. -/
def noStepMatch (step : List Char → Option (List Char × List Char)) : List Char → Bool
  | [] => true
  | c :: cs => (step (c :: cs)).isNone && noStepMatch step cs

/-- Some pass's pattern matches at the start of `l`. -/
def tokenAt (l : List Char) : Bool :=
  (matchBlock '#' l).isSome || (matchBlock '^' l).isSome || (matchDefault l).isSome
    || (matchSimple l).isSome

/-- Some pass's pattern matches somewhere in `l`: the text contains a
markup token of the engine's syntax. -/
def hasMarkupToken : List Char → Bool
  | [] => false
  | c :: cs => tokenAt (c :: cs) || hasMarkupToken cs

theorem reSubF_of_noStepMatch (step : List Char → Option (List Char × List Char)) :
    ∀ (fuel : Nat) (l : List Char), noStepMatch step l = true → reSubF step fuel l = l := by
  intro fuel
  induction fuel with
  | zero => intro l _; cases l <;> rfl
  | succ n ih =>
    intro l h
    cases l with
    | nil => rfl
    | cons c cs =>
      have h2 : (step (c :: cs)).isNone = true ∧ noStepMatch step cs = true := by
        simpa [noStepMatch, Bool.and_eq_true] using h
      have hn : step (c :: cs) = none := by
        cases hs : step (c :: cs) with
        | none => rfl
        | some r => rw [hs] at h2; simp [Option.isNone] at h2
      rw [reSubF_cons_none _ _ _ _ hn, ih cs h2.2]

theorem steps_none_of_tokenAt (vars : Vars) (l : List Char) (h : tokenAt l = false) :
    condStep vars l = none ∧ invStep vars l = none ∧ defaultStep vars l = none
      ∧ simpleStep vars l = none := by
  have h4 : ((matchBlock '#' l = none ∧ matchBlock '^' l = none) ∧ matchDefault l = none)
      ∧ matchSimple l = none := by
    simpa [tokenAt, Bool.or_eq_false_iff] using h
  refine ⟨?_, ?_, ?_, ?_⟩
  · simp [condStep, h4.1.1.1]
  · simp [invStep, h4.1.1.2]
  · simp [defaultStep, h4.1.2]
  · simp [simpleStep, h4.2]

theorem noStepMatch_of_no_token (step : List Char → Option (List Char × List Char))
    (hstep : ∀ l : List Char, tokenAt l = false → step l = none) :
    ∀ l : List Char, hasMarkupToken l = false → noStepMatch step l = true := by
  intro l
  induction l with
  | nil => intro _; rfl
  | cons c cs ih =>
    intro h
    have h2 : tokenAt (c :: cs) = false ∧ hasMarkupToken cs = false := by
      simpa [hasMarkupToken, Bool.or_eq_false_iff] using h
    have hn : step (c :: cs) = none := hstep _ h2.1
    simp [noStepMatch, hn, ih h2.2]

theorem process_template_no_token (vars : Vars) (t : String)
    (h : hasMarkupToken t.toList = false) : process_template vars t = t := by
  have hc := noStepMatch_of_no_token (condStep vars)
    (fun l hl => (steps_none_of_tokenAt vars l hl).1) t.toList h
  have hi := noStepMatch_of_no_token (invStep vars)
    (fun l hl => (steps_none_of_tokenAt vars l hl).2.1) t.toList h
  have hd := noStepMatch_of_no_token (defaultStep vars)
    (fun l hl => (steps_none_of_tokenAt vars l hl).2.2.1) t.toList h
  have hs := noStepMatch_of_no_token (simpleStep vars)
    (fun l hl => (steps_none_of_tokenAt vars l hl).2.2.2) t.toList h
  have p1 : positive_pass vars t.toList = t.toList := by
    unfold positive_pass subOnce
    rw [reSubF_of_noStepMatch _ _ _ hc, reSubF_of_noStepMatch _ _ _ hc,
      reSubF_of_noStepMatch _ _ _ hc]
  have p2 : inverted_pass vars t.toList = t.toList := by
    unfold inverted_pass subOnce
    rw [reSubF_of_noStepMatch _ _ _ hi, reSubF_of_noStepMatch _ _ _ hi,
      reSubF_of_noStepMatch _ _ _ hi]
  have p3 : subOnce (defaultStep vars) t.toList = t.toList :=
    reSubF_of_noStepMatch _ _ _ hd
  have p4 : subOnce (simpleStep vars) t.toList = t.toList :=
    reSubF_of_noStepMatch _ _ _ hs
  have hid := process_template_id vars t.toList p1 p2 p3 p4
  rw [mk_toList] at hid
  exact hid

/-- C8: strings without markup tokens are fixed points of the engine, for
every variable mapping; consequently the engine is idempotent on its own
fully resolved, token-free output. -/
theorem no_markup_identity :
    (∀ (vars : Vars) (t : String), hasMarkupToken t.toList = false →
      process_template vars t = t)
    ∧ (∀ (vars vars2 : Vars) (t : String),
        hasMarkupToken (process_template vars t).toList = false →
        process_template vars2 (process_template vars t) = process_template vars t) := by
  refine ⟨process_template_no_token, ?_⟩
  intro vars vars2 t h
  exact process_template_no_token vars2 _ h

/-- Witness for C8 at concrete inputs. -/
theorem no_markup_identity_witness :
    hasMarkupToken ("plain text, no tokens".toList) = false
    ∧ process_template [("X", "v")] "plain text, no tokens" = "plain text, no tokens"
    ∧ process_template [] (process_template [("X", "v")] (String.mk (simpleT ['X'])))
      = process_template [("X", "v")] (String.mk (simpleT ['X'])) :=
  ⟨by decide,
    no_markup_identity.1 [("X", "v")] "plain text, no tokens" (by decide),
    no_markup_identity.2 [("X", "v")] [] (String.mk (simpleT ['X'])) (by decide)⟩

/-- C9: the variable mapping handed to the engine consists of exactly
those environment entries whose full name passes Python's uppercase test,
keys keeping their casing and values taken verbatim; `path` is excluded
while `PATH` is included. -/
theorem env_uppercase_filter :
    (∀ (environ : List (String × String)) (kv : String × String),
      kv ∈ load_variables_from_env environ ↔ kv ∈ environ ∧ pyIsUpper kv.1 = true)
    ∧ load_variables_from_env [("path", "p"), ("PATH", "q")] = [("PATH", "q")]
    ∧ pyIsUpper "path" = false ∧ pyIsUpper "PATH" = true := by
  refine ⟨?_, by decide, by decide, by decide⟩
  intro environ kv
  simp [load_variables_from_env, List.mem_filter]

end TemplateProcessor
